import Mathlib

/-
Verification of the session-bound encrypted-token lifecycle of the
`customauth` app (`customauth/tokenutils.py`, `customauth/models.py`).

Modelling conventions (shallow embedding):

* UUIDs (`uuid.uuid4()` values used for `User.id`, `UserSession.id`,
  `UserSession.version_id`) are modelled as natural numbers drawn from a
  per-store fresh counter `nextUuid`; `uuid4()` returns the counter value and
  bumps it.  The only operations the code performs on uuids are equality and
  `str(...)`; `uuidStr` renders a uuid as a string injectively and never
  produces the empty string, which is all the code's `str(...)` comparisons
  and falsiness checks depend on.
* The Fernet envelope (`_get_fernet`, `f.encrypt` / `f.decrypt`) is
  authenticated encryption under the fixed process key: a ciphertext string
  either is a genuine encryption of an inner JWT string (decryption succeeds
  and returns exactly that inner string) or fails to decrypt.  `Credential`
  partitions the input strings accordingly: `empty` is the empty string
  (`if not encrypted_token` is true exactly there), `tok true inner` is a
  well-formed encryption of `inner`, `tok false inner` is any non-empty
  string Fernet rejects (`inner` records what bytes would have been inside,
  so that statements can quantify over them).
* The signed JWT layer (`jwt.encode` / `jwt.decode` with the fixed secret and
  algorithm) either carries a correctly signed payload (`Jwt.signed p`) or is
  rejected (`Jwt.malformed`, PyJWT's `InvalidTokenError`).  PyJWT verifies
  the signature and then raises `ExpiredSignatureError` iff the payload has
  an `exp` claim with `exp <= now` (zero leeway); `jwt_decode` mirrors that.
* JWT payloads are dicts; the fields the code reads are modelled as `Option`
  fields (`payload.get(k)` is `none` when the key is absent).  Python's
  falsiness check `if not x` on an optional string is `none` or `""`.
* The Django ORM is a `Store` of `User` and `UserSession` rows.
  `Model.objects.get(id=...)` is a unique lookup modelled with `List.find?`
  (ids are primary keys, unique in a well-formed store).  A lookup with a
  string that is not the rendering of any uuid simply misses; the code paths
  proved here only look up strings produced by `uuidStr`.
* Database effects are explicit state passing: functions that write return a
  new `Store`; `decrypt_and_decode_token` only reads, and a state-threaded
  variant `decrypt_and_decode_tokenS` makes that observable.
-/

namespace CustomAuth

/-- Model of uuid values: drawn from a fresh counter per store. -/
abbrev Uuid := Nat

/-- Rendering `str(uuid)`. The code only compares such strings for equality
and (Python) falsiness, so any injective, never-empty rendering is a faithful
model of the hyphenated hex form. -/
def uuidStr (n : Uuid) : String := String.mk (List.replicate (n + 1) 'u')

/-- Row of the `User` table (`customauth/models.py`); only the fields the
token code reads are carried. -/
structure User where
  id : Uuid
  phone_number : String
deriving Repr, DecidableEq

/-- Row of the `UserSession` table (`customauth/models.py`): session id,
owner foreign key, and the rotating `version_id`. -/
structure UserSession where
  id : Uuid
  user_id : Uuid
  version_id : Uuid
deriving Repr, DecidableEq

/-- The database state plus the fresh-uuid counter. -/
structure Store where
  users : List User
  sessions : List UserSession
  nextUuid : Uuid
deriving Repr, DecidableEq

/-- JWT payload dict, restricted to the keys the code writes/reads.
`none` models an absent key. -/
structure Payload where
  user_id : Option String
  phone_number : Option String
  session_id : Option String
  session_version_id : Option String
  type : Option String
  iat : Option Int
  exp : Option Int
deriving Repr, DecidableEq

/-- Inner (Fernet-decrypted) string as seen by `jwt.decode`: either a token
correctly signed under the process secret, or anything PyJWT rejects. -/
inductive Jwt where
  | signed (payload : Payload)
  | malformed
deriving Repr, DecidableEq

/-- Outer credential strings, partitioned by the first two stages of the
pipeline: the empty string, a genuine Fernet encryption of `inner`, or a
non-empty string Fernet rejects (carrying the bytes that would have been
inside, for quantification). -/
inductive Credential where
  | empty
  | tok (decryptable : Bool) (inner : Jwt)
deriving Repr, DecidableEq

/-- Error codes returned by `decrypt_and_decode_token` /
`decrypt_and_get_payload` (docstring, tokenutils.py lines 152-163). -/
inductive ErrCode where
  | invalid_encrypted
  | token_expired
  | invalid_token
  | invalid_type
  | user_id_missing
  | session_id_missing
  | session_not_found
  | user_not_found
  | session_user_mismatch
  | session_version_mismatch
deriving Repr, DecidableEq

/-- Outcomes of `jwt.decode`'s exception paths. -/
inductive JwtError where
  | expired
  | invalid
deriving Repr, DecidableEq

/-- PyJWT expiry test: an `exp` claim is present and `exp <= now` (leeway 0). -/
def expPassed (p : Payload) (now : Int) : Bool :=
  match p.exp with
  | none => false
  | some e => e ≤ now

/-- Model of `jwt.decode(decrypted, secret, algorithms=[alg])`: signature
verification first (anything malformed raises `InvalidTokenError`), then the
expiry check (`ExpiredSignatureError`), then the payload is returned. -/
def jwt_decode (j : Jwt) (now : Int) : Except JwtError Payload :=
  match j with
  | .malformed => .error .invalid
  | .signed p => if expPassed p now then .error .expired else .ok p

/-- Python falsiness of an optional string (`if not x`). -/
def strFalsy : Option String → Bool
  | none => true
  | some s => s == ""

/-- Lookup `User.objects.get(id=user_id)` where `user_id` is the string from
the payload (Django coerces it back to a uuid; primary keys are unique). -/
def find_user_by_str (st : Store) (s : String) : Option User :=
  st.users.find? (fun u => uuidStr u.id == s)

/-- Lookup `UserSession.objects.get(id=session_id)` by payload string. -/
def find_session_by_str (st : Store) (s : String) : Option UserSession :=
  st.sessions.find? (fun r => uuidStr r.id == s)

/-- Lookup a user row by uuid (the FK dereference `session.user`). -/
def find_user (st : Store) (uid : Uuid) : Option User :=
  st.users.find? (fun u => u.id == uid)

/-- Lookup a session row by uuid. -/
def find_session (st : Store) (sid : Uuid) : Option UserSession :=
  st.sessions.find? (fun r => r.id == sid)

/-- The claims dict built by `create_encrypted_access_token_for_session`
(tokenutils.py lines 85-93). -/
def access_payload (u : User) (s : UserSession) (now lifetime : Int) : Payload :=
  { user_id := some (uuidStr u.id)
    phone_number := some u.phone_number
    session_id := some (uuidStr s.id)
    session_version_id := some (uuidStr s.version_id)
    type := some "access"
    iat := some now
    exp := some (now + lifetime) }

/-- Model of `create_encrypted_access_token_for_session` (lines 65-103):
dereference `session.user`, build the payload, sign it, encrypt it.
`none` models the `User.DoesNotExist` fault on a dangling FK. -/
def create_encrypted_access_token_for_session (st : Store) (s : UserSession)
    (now lifetime : Int) : Option Credential :=
  match find_user st s.user_id with
  | none => none
  | some u => some (.tok true (.signed (access_payload u s now lifetime)))

/-- Model of `_create_session_row` (lines 57-62): insert a fresh row with
freshly generated `id` and `version_id`. -/
def _create_session_row (st : Store) (u : User) : UserSession × Store :=
  let s : UserSession :=
    { id := st.nextUuid, user_id := u.id, version_id := st.nextUuid + 1 }
  (s, { st with sessions := st.sessions ++ [s], nextUuid := st.nextUuid + 2 })

/-- Model of `create_session` (lines 106-116): create the row, then mint the
encrypted access token bound to it. -/
def create_session (st : Store) (u : User) (now lifetime : Int) :
    UserSession × Option Credential × Store :=
  let rs := _create_session_row st u
  (rs.1, create_encrypted_access_token_for_session rs.2 rs.1 now lifetime, rs.2)

/-- Model of `UserSession.rotate_version` (models.py lines 43-48): assign a
fresh `version_id` to the row with this id and save it. -/
def rotate_version (st : Store) (sid : Uuid) : Store :=
  { st with
    sessions := st.sessions.map
      (fun r => if r.id == sid then { r with version_id := st.nextUuid } else r)
    nextUuid := st.nextUuid + 1 }

/-- Model of `revoke_session` (tokenutils.py lines 119-139) at row level:
the store effect of a revoke issued on a live instance — hard delete removes
the row, soft revoke rotates `version_id`. The in-memory side of
`session.delete()` (Django's collector nulls the instance's pk, so a retried
delete on the same instance raises `ValueError`) is modelled at instance
granularity by `SessionInstance.delete` / `revoke_session_instance`. -/
def revoke_session (st : Store) (s : UserSession) (hard_delete : Bool) : Store :=
  if hard_delete then
    { st with sessions := st.sessions.filter (fun r => r.id != s.id) }
  else
    rotate_version st s.id

/-- In-memory Django model instance of a session row: `pk` is the
instance's primary-key attribute. Django's delete collector sets the
deleted instance's pk to `None` after removing its row, so an instance can
outlive its row with `pk = none`; the remaining fields mirror
`UserSession`. -/
structure SessionInstance where
  pk : Option Uuid
  user_id : Uuid
  version_id : Uuid
deriving Repr, DecidableEq

/-- Fault raised by the ORM on the revoke path: Django's `Model.delete()`
raises `ValueError` on an instance whose pk is `None`, and
`Model.save(update_fields=...)` raises `ValueError` on an instance with no
pk. -/
inductive OrmFault where
  | value_error
deriving Repr, DecidableEq

/-- Model of `session.delete()` (tokenutils.py line 130) at instance
granularity: an instance whose pk was already nulled by a previous delete
raises `ValueError`; otherwise the row with that pk is deleted (a DELETE
matching no row is harmless) and the instance's pk is set to `None`. -/
def SessionInstance.delete (inst : SessionInstance) (st : Store) :
    Except OrmFault (SessionInstance × Store) :=
  match inst.pk with
  | none => .error .value_error
  | some sid =>
    .ok ({ inst with pk := none },
      { st with sessions := st.sessions.filter (fun r => r.id != sid) })

/-- Model of `revoke_session` (tokenutils.py lines 119-139) at instance
granularity: the hard path is `session.delete()`; the soft path is
`session.rotate_version()`, which assigns a fresh `version_id` to the
instance and saves its row (`save` with `update_fields` on a pk-less
instance raises `ValueError`). On a live (pk-carrying) instance the store
effect coincides with `revoke_session`. -/
def revoke_session_instance (st : Store) (s : SessionInstance) (hard_delete : Bool) :
    Except OrmFault (SessionInstance × Store) :=
  if hard_delete then
    s.delete st
  else
    match s.pk with
    | none => .error .value_error
    | some sid => .ok ({ s with version_id := st.nextUuid }, rotate_version st sid)

/-- Model of `decrypt_and_decode_token` (tokenutils.py lines 144-221),
translated branch by branch in source order. -/
def decrypt_and_decode_token (st : Store) (encrypted_token : Credential)
    (expected_type : Option String) (now : Int) :
    Option User × Option UserSession × Option ErrCode :=
  match encrypted_token with
  | .empty => (none, none, some .invalid_encrypted)
  | .tok false _ => (none, none, some .invalid_encrypted)
  | .tok true inner =>
    match jwt_decode inner now with
    | .error .expired => (none, none, some .token_expired)
    | .error .invalid => (none, none, some .invalid_token)
    | .ok payload =>
      let typeOk : Bool :=
        match expected_type with
        | none => true
        | some t => payload.type == some t
      if !typeOk then (none, none, some .invalid_type)
      else if strFalsy payload.user_id then (none, none, some .user_id_missing)
      else
        match find_user_by_str st (payload.user_id.getD "") with
        | none => (none, none, some .user_not_found)
        | some user =>
          if strFalsy payload.session_id then (some user, none, some .session_id_missing)
          else
            match find_session_by_str st (payload.session_id.getD "") with
            | none => (some user, none, some .session_not_found)
            | some session =>
              if session.user_id ≠ user.id then
                (some user, none, some .session_user_mismatch)
              else if strFalsy payload.session_version_id ∨
                  uuidStr session.version_id ≠ payload.session_version_id.getD "" then
                (some user, some session, some .session_version_mismatch)
              else
                (some user, some session, none)

/-- Model of `decrypt_and_get_payload` (tokenutils.py lines 224-255): the
presence, envelope and JWT stages only, no database lookup. -/
def decrypt_and_get_payload (encrypted_token : Credential) (now : Int) :
    Option Payload × Option ErrCode :=
  match encrypted_token with
  | .empty => (none, some .invalid_encrypted)
  | .tok false _ => (none, some .invalid_encrypted)
  | .tok true inner =>
    match jwt_decode inner now with
    | .error .expired => (none, some .token_expired)
    | .error .invalid => (none, some .invalid_token)
    | .ok payload => (some payload, none)

/-- State-threaded variant of `decrypt_and_decode_token`: every database
access passes the store through explicitly, so that the absence of writes is
a provable statement rather than a typing convention. The two `.get` calls
are SELECTs: they return the store they were given. -/
def db_find_user_by_str (st : Store) (s : String) : Option User × Store :=
  (st.users.find? (fun u => uuidStr u.id == s), st)

/-- SELECT of a session row by payload string, store threaded through. -/
def db_find_session_by_str (st : Store) (s : String) : Option UserSession × Store :=
  (st.sessions.find? (fun r => uuidStr r.id == s), st)

/-- State-threaded translation of `decrypt_and_decode_token`; same branch
structure as the pure version, with the store passed through every database
access and returned alongside the result. -/
def decrypt_and_decode_tokenS (st : Store) (encrypted_token : Credential)
    (expected_type : Option String) (now : Int) :
    (Option User × Option UserSession × Option ErrCode) × Store :=
  match encrypted_token with
  | .empty => ((none, none, some .invalid_encrypted), st)
  | .tok false _ => ((none, none, some .invalid_encrypted), st)
  | .tok true inner =>
    match jwt_decode inner now with
    | .error .expired => ((none, none, some .token_expired), st)
    | .error .invalid => ((none, none, some .invalid_token), st)
    | .ok payload =>
      let typeOk : Bool :=
        match expected_type with
        | none => true
        | some t => payload.type == some t
      if !typeOk then ((none, none, some .invalid_type), st)
      else if strFalsy payload.user_id then ((none, none, some .user_id_missing), st)
      else
        let ur := db_find_user_by_str st (payload.user_id.getD "")
        match ur.1 with
        | none => ((none, none, some .user_not_found), ur.2)
        | some user =>
          if strFalsy payload.session_id then
            ((some user, none, some .session_id_missing), ur.2)
          else
            let sr := db_find_session_by_str ur.2 (payload.session_id.getD "")
            match sr.1 with
            | none => ((some user, none, some .session_not_found), sr.2)
            | some session =>
              if session.user_id ≠ user.id then
                ((some user, none, some .session_user_mismatch), sr.2)
              else if strFalsy payload.session_version_id ∨
                  uuidStr session.version_id ≠ payload.session_version_id.getD "" then
                ((some user, some session, some .session_version_mismatch), sr.2)
              else
                ((some user, some session, none), sr.2)

/-- Well-formed store: primary keys are unique and every uuid already handed
out is below the fresh counter (what `uuid.uuid4()` collision-freeness gives
the real system). -/
def Store.wf (st : Store) : Prop :=
  (st.users.map User.id).Nodup ∧
  (st.sessions.map UserSession.id).Nodup ∧
  (∀ u ∈ st.users, u.id < st.nextUuid) ∧
  (∀ s ∈ st.sessions, s.id < st.nextUuid ∧ s.version_id < st.nextUuid)

instance (st : Store) : Decidable st.wf := by
  unfold Store.wf; infer_instance

/-- Concrete one-user store used to instantiate the general theorems. -/
def exStore : Store := { users := [⟨0, "9990001111"⟩], sessions := [], nextUuid := 1 }

/-- The single user of `exStore`. -/
def exUser : User := ⟨0, "9990001111"⟩

/-- Concrete store with two users and one session owned by the second user;
used to exercise the ownership-mismatch stage. -/
def exStore2 : Store :=
  { users := [⟨0, "9990001111"⟩, ⟨1, "9990002222"⟩]
    sessions := [⟨2, 1, 3⟩]
    nextUuid := 4 }

/-- The session of `exStore2`, owned by user 1. -/
def exSession2 : UserSession := ⟨2, 1, 3⟩

/-- A signed "access" payload naming user 0 but session 2 (owned by user 1)
with the session's current version and a far-future expiry. -/
def exPayloadCross : Payload :=
  { user_id := some (uuidStr 0)
    phone_number := some "9990001111"
    session_id := some (uuidStr 2)
    session_version_id := some (uuidStr 3)
    type := some "access"
    iat := some 0
    exp := some 100 }

/-- Concrete store with one user and one session owned by that user. -/
def exStore3 : Store :=
  { users := [⟨0, "9990001111"⟩]
    sessions := [⟨2, 0, 3⟩]
    nextUuid := 4 }

/-- The session of `exStore3`, owned by user 0 with version 3. -/
def exSession3 : UserSession := ⟨2, 0, 3⟩

/-- A signed "access" payload for user 0 and session 2 of `exStore3` that
carries no `session_version_id` claim at all. -/
def exPayloadNoVer : Payload :=
  { user_id := some (uuidStr 0)
    phone_number := some "9990001111"
    session_id := some (uuidStr 2)
    session_version_id := none
    type := some "access"
    iat := some 0
    exp := some 100 }

/-- A payload whose `exp` is already in the past at time 0. -/
def exPayloadExpired : Payload :=
  { user_id := some (uuidStr 0)
    phone_number := some "9990001111"
    session_id := some (uuidStr 2)
    session_version_id := some (uuidStr 3)
    type := some "access"
    iat := some (-10)
    exp := some 0 }

theorem uuidStr_inj {a b : Uuid} (h : uuidStr a = uuidStr b) : a = b := by
  have hl : (uuidStr a).length = (uuidStr b).length := by rw [h]
  simp [uuidStr, String.length] at hl
  exact hl

theorem uuidStr_ne_empty (a : Uuid) : uuidStr a ≠ "" := by
  intro h
  have hl : (uuidStr a).length = ("" : String).length := by rw [h]
  simp [uuidStr, String.length] at hl

theorem find?_map_nodup {α β : Type} [DecidableEq β] (f : α → β) :
    ∀ (l : List α) (a : α), (l.map f).Nodup → a ∈ l →
      l.find? (fun x => f x == f a) = some a := by
  intro l
  induction l with
  | nil => intro a _ ha; cases ha
  | cons x xs ih =>
    intro a hnd hmem
    rw [List.map_cons, List.nodup_cons] at hnd
    by_cases hx : f x = f a
    · have hax : a = x := by
        rcases List.mem_cons.mp hmem with h | h
        · exact h
        · exact absurd (hx ▸ List.mem_map_of_mem f h) hnd.1
      rw [List.find?_cons]
      simp [hx, hax]
    · have hmem' : a ∈ xs := by
        rcases List.mem_cons.mp hmem with h | h
        · exact absurd (h ▸ rfl) hx
        · exact h
      rw [List.find?_cons]
      have : (f x == f a) = false := by simpa using hx
      simp only [this]
      exact ih a hnd.2 hmem'

theorem find?_append_left_none {α : Type} {p : α → Bool} {l1 l2 : List α}
    (h : l1.find? p = none) : (l1 ++ l2).find? p = l2.find? p := by
  induction l1 with
  | nil => simp
  | cons x xs ih =>
    rw [List.find?_cons] at h
    rw [List.cons_append, List.find?_cons]
    cases hpx : p x with
    | true => simp [hpx] at h
    | false =>
      simp only [hpx] at h ⊢
      exact ih h

theorem find_user_by_str_eq {st : Store} {u : User}
    (hnd : (st.users.map User.id).Nodup) (hu : u ∈ st.users) :
    find_user_by_str st (uuidStr u.id) = some u := by
  have hinj : Function.Injective uuidStr := fun a b h => uuidStr_inj h
  have hnd' : (st.users.map (fun x => uuidStr x.id)).Nodup := by
    simpa [List.map_map, Function.comp] using hnd.map hinj
  exact find?_map_nodup (fun x => uuidStr x.id) st.users u hnd' hu

theorem find_user_eq {st : Store} {u : User}
    (hnd : (st.users.map User.id).Nodup) (hu : u ∈ st.users) :
    find_user st u.id = some u :=
  find?_map_nodup User.id st.users u hnd hu

theorem map_noop {α : Type} (f : α → α) :
    ∀ (l : List α), (∀ a ∈ l, f a = a) → l.map f = l := by
  intro l
  induction l with
  | nil => intro _; rfl
  | cons x xs ih =>
    intro h
    rw [List.map_cons, h x (List.mem_cons_self x xs),
      ih (fun a ha => h a (List.mem_cons_of_mem x ha))]

theorem filter_noop {α : Type} (p : α → Bool) :
    ∀ (l : List α), (∀ a ∈ l, p a = true) → l.filter p = l := by
  intro l
  induction l with
  | nil => intro _; rfl
  | cons x xs ih =>
    intro h
    rw [List.filter_cons_of_pos (h x (List.mem_cons_self x xs)),
      ih (fun a ha => h a (List.mem_cons_of_mem x ha))]

theorem find?_append_fresh {α : Type} {p : α → Bool} {l : List α} (a : α)
    (hl : ∀ x ∈ l, p x = false) (ha : p a = true) :
    List.find? p (l ++ [a]) = some a := by
  rw [find?_append_left_none]
  · rw [List.find?_cons]
    simp [ha]
  · rw [List.find?_eq_none]
    intro x hx
    simp [hl x hx]

/-- Stage lemma: a decryptable, signed, unexpired, right-typed credential
whose `user_id` resolves and whose `session_id` misses the session table
yields `(user, none, session_not_found)`. -/
theorem decode_session_not_found (st : Store) (p : Payload) (ty : Option String)
    (now : Int) (user : User) (uid sid : String)
    (hnexp : expPassed p now = false)
    (hty : ∀ t, ty = some t → p.type = some t)
    (huid : p.user_id = some uid) (huidne : uid ≠ "")
    (hfu : find_user_by_str st uid = some user)
    (hsid : p.session_id = some sid) (hsidne : sid ≠ "")
    (hfs : find_session_by_str st sid = none) :
    decrypt_and_decode_token st (.tok true (.signed p)) ty now
      = (some user, none, some .session_not_found) := by
  cases ty with
  | none =>
    simp [decrypt_and_decode_token, jwt_decode, hnexp, strFalsy,
      huid, huidne, hfu, hsid, hsidne, hfs]
  | some t =>
    have ht := hty t rfl
    simp [decrypt_and_decode_token, jwt_decode, hnexp, strFalsy,
      ht, huid, huidne, hfu, hsid, hsidne, hfs]

/-- Stage lemma: if the looked-up session's owner differs from the resolved
user, the result is `(user, none, session_user_mismatch)` — with no session
in the result. -/
theorem decode_session_user_mismatch (st : Store) (p : Payload) (ty : Option String)
    (now : Int) (user : User) (session : UserSession) (uid sid : String)
    (hnexp : expPassed p now = false)
    (hty : ∀ t, ty = some t → p.type = some t)
    (huid : p.user_id = some uid) (huidne : uid ≠ "")
    (hfu : find_user_by_str st uid = some user)
    (hsid : p.session_id = some sid) (hsidne : sid ≠ "")
    (hfs : find_session_by_str st sid = some session)
    (hown : session.user_id ≠ user.id) :
    decrypt_and_decode_token st (.tok true (.signed p)) ty now
      = (some user, none, some .session_user_mismatch) := by
  cases ty with
  | none =>
    simp [decrypt_and_decode_token, jwt_decode, hnexp, strFalsy,
      huid, huidne, hfu, hsid, hsidne, hfs, hown]
  | some t =>
    have ht := hty t rfl
    simp [decrypt_and_decode_token, jwt_decode, hnexp, strFalsy,
      ht, huid, huidne, hfu, hsid, hsidne, hfs, hown]

/-- Stage lemma: ownership matches but the version claim is absent, empty,
or differs from the session's current `version_id`: the result is
`(user, session, session_version_mismatch)`. -/
theorem decode_version_mismatch (st : Store) (p : Payload) (ty : Option String)
    (now : Int) (user : User) (session : UserSession) (uid sid : String)
    (hnexp : expPassed p now = false)
    (hty : ∀ t, ty = some t → p.type = some t)
    (huid : p.user_id = some uid) (huidne : uid ≠ "")
    (hfu : find_user_by_str st uid = some user)
    (hsid : p.session_id = some sid) (hsidne : sid ≠ "")
    (hfs : find_session_by_str st sid = some session)
    (hown : session.user_id = user.id)
    (hver : p.session_version_id = none ∨
      ∃ sv, p.session_version_id = some sv ∧ sv ≠ uuidStr session.version_id) :
    decrypt_and_decode_token st (.tok true (.signed p)) ty now
      = (some user, some session, some .session_version_mismatch) := by
  have hcond : strFalsy p.session_version_id = true ∨
      ¬uuidStr session.version_id = p.session_version_id.getD "" := by
    rcases hver with h | ⟨sv, hsv, hne⟩
    · exact Or.inl (by rw [h]; rfl)
    · by_cases hemp : sv = ""
      · exact Or.inl (by rw [hsv, hemp]; rfl)
      · refine Or.inr ?_
        rw [hsv]
        exact fun hcontra => hne hcontra.symm
  cases ty with
  | none =>
    simp [decrypt_and_decode_token, jwt_decode, hnexp, strFalsy,
      huid, huidne, hfu, hsid, hsidne, hfs, hown] at hcond ⊢
    intro hver2
    rcases hcond with h | h
    · simp [hver2] at h
    · exact h
  | some t =>
    have ht := hty t rfl
    simp [decrypt_and_decode_token, jwt_decode, hnexp, strFalsy,
      ht, huid, huidne, hfu, hsid, hsidne, hfs, hown] at hcond ⊢
    intro hver2
    rcases hcond with h | h
    · simp [hver2] at h
    · exact h

/-- Stage lemma: every stage passes (the version claim equals the session's
current version) and validation succeeds with `(user, session, none)`. -/
theorem decode_success (st : Store) (p : Payload) (ty : Option String)
    (now : Int) (user : User) (session : UserSession) (uid sid : String)
    (hnexp : expPassed p now = false)
    (hty : ∀ t, ty = some t → p.type = some t)
    (huid : p.user_id = some uid) (huidne : uid ≠ "")
    (hfu : find_user_by_str st uid = some user)
    (hsid : p.session_id = some sid) (hsidne : sid ≠ "")
    (hfs : find_session_by_str st sid = some session)
    (hown : session.user_id = user.id)
    (hver : p.session_version_id = some (uuidStr session.version_id)) :
    decrypt_and_decode_token st (.tok true (.signed p)) ty now
      = (some user, some session, none) := by
  have hne : (uuidStr session.version_id == "") = false := by
    simpa using uuidStr_ne_empty session.version_id
  cases ty with
  | none =>
    simp [decrypt_and_decode_token, jwt_decode, hnexp, strFalsy,
      huid, huidne, hfu, hsid, hsidne, hfs, hown, hver, hne]
  | some t =>
    have ht := hty t rfl
    simp [decrypt_and_decode_token, jwt_decode, hnexp, strFalsy,
      ht, huid, huidne, hfu, hsid, hsidne, hfs, hown, hver, hne]

/-- C1: for every owner with an existing `User` row, `create_session` followed
immediately by `decrypt_and_decode_token` on the returned credential with
expected type "access" yields that owner's `User`, the freshly created
`UserSession`, and no error, provided the validation time is before the
token's `expires_at` (= issuance time + lifetime). -/
theorem issue_then_validate_succeeds
    (st : Store) (u : User) (now lifetime nowv : Int)
    (hwf : st.wf) (hu : u ∈ st.users) (hnotexp : nowv < now + lifetime) :
    ∃ s cred st1,
      create_session st u now lifetime = (s, some cred, st1) ∧
      decrypt_and_decode_token st1 cred (some "access") nowv = (some u, some s, none) := by
  obtain ⟨hndU, hndS, hltU, hltS⟩ := hwf
  refine ⟨⟨st.nextUuid, u.id, st.nextUuid + 1⟩,
    .tok true (.signed (access_payload u ⟨st.nextUuid, u.id, st.nextUuid + 1⟩ now lifetime)),
    { st with
        sessions := st.sessions ++ [⟨st.nextUuid, u.id, st.nextUuid + 1⟩]
        nextUuid := st.nextUuid + 2 }, ?_, ?_⟩
  · have htok : create_encrypted_access_token_for_session
        { st with
            sessions := st.sessions ++ [⟨st.nextUuid, u.id, st.nextUuid + 1⟩]
            nextUuid := st.nextUuid + 2 }
        ⟨st.nextUuid, u.id, st.nextUuid + 1⟩ now lifetime
        = some (.tok true (.signed
            (access_payload u ⟨st.nextUuid, u.id, st.nextUuid + 1⟩ now lifetime))) := by
      unfold create_encrypted_access_token_for_session
      rw [show find_user
          { st with
              sessions := st.sessions ++ [⟨st.nextUuid, u.id, st.nextUuid + 1⟩]
              nextUuid := st.nextUuid + 2 }
          (UserSession.user_id ⟨st.nextUuid, u.id, st.nextUuid + 1⟩) = some u
        from find_user_eq hndU hu]
    exact Prod.ext rfl (Prod.ext htok rfl)
  · have hexp : expPassed
        (access_payload u ⟨st.nextUuid, u.id, st.nextUuid + 1⟩ now lifetime) nowv = false := by
      have h : ¬(now + lifetime ≤ nowv) := by omega
      simpa [expPassed, access_payload] using h
    simp only [access_payload] at hexp
    have h2 : find_user_by_str
        { st with
            sessions := st.sessions ++ [⟨st.nextUuid, u.id, st.nextUuid + 1⟩]
            nextUuid := st.nextUuid + 2 }
        (uuidStr u.id) = some u := find_user_by_str_eq hndU hu
    have h3 : find_session_by_str
        { st with
            sessions := st.sessions ++ [⟨st.nextUuid, u.id, st.nextUuid + 1⟩]
            nextUuid := st.nextUuid + 2 }
        (uuidStr st.nextUuid) = some ⟨st.nextUuid, u.id, st.nextUuid + 1⟩ := by
      unfold find_session_by_str
      show List.find? _ (st.sessions ++ [⟨st.nextUuid, u.id, st.nextUuid + 1⟩]) = _
      rw [find?_append_left_none]
      · simp [List.find?]
      · rw [List.find?_eq_none]
        intro r hr
        simp only [beq_iff_eq]
        intro hcontra
        have hid : r.id = st.nextUuid := uuidStr_inj hcontra
        exact Nat.ne_of_lt (hltS r hr).1 hid
    have hne1 : (uuidStr u.id == "") = false := by
      simpa using uuidStr_ne_empty u.id
    have hne2 : (uuidStr st.nextUuid == "") = false := by
      simpa using uuidStr_ne_empty st.nextUuid
    have hne3 : (uuidStr (st.nextUuid + 1) == "") = false := by
      simpa using uuidStr_ne_empty (st.nextUuid + 1)
    simp [decrypt_and_decode_token, jwt_decode, hexp, access_payload, strFalsy,
      hne1, hne2, hne3, h2, h3]

/-- C2: for every session created by `create_session` and the credential
minted against it, after `revoke_session(session, hard_delete=False)`
(version rotation) the old credential validates to
`session_version_mismatch` (with the rotated session returned alongside the
user), while a brand-new credential minted for that same session id
afterwards validates successfully. -/
theorem soft_revoke_then_reissue
    (st : Store) (u : User) (now lifetime now2 lifetime2 nowv nowv2 : Int)
    (hwf : st.wf) (hu : u ∈ st.users)
    (hv1 : nowv < now + lifetime) (hv2 : nowv2 < now2 + lifetime2) :
    ∃ s cred st1, create_session st u now lifetime = (s, some cred, st1) ∧
      ∃ s2, find_session (revoke_session st1 s false) s.id = some s2 ∧
        decrypt_and_decode_token (revoke_session st1 s false) cred (some "access") nowv
          = (some u, some s2, some .session_version_mismatch) ∧
        ∃ cred2,
          create_encrypted_access_token_for_session (revoke_session st1 s false) s2
            now2 lifetime2 = some cred2 ∧
          decrypt_and_decode_token (revoke_session st1 s false) cred2 (some "access") nowv2
            = (some u, some s2, none) := by
  obtain ⟨hndU, hndS, hltU, hltS⟩ := hwf
  refine ⟨⟨st.nextUuid, u.id, st.nextUuid + 1⟩,
    .tok true (.signed (access_payload u ⟨st.nextUuid, u.id, st.nextUuid + 1⟩ now lifetime)),
    { st with
        sessions := st.sessions ++ [⟨st.nextUuid, u.id, st.nextUuid + 1⟩]
        nextUuid := st.nextUuid + 2 }, ?_, ?_⟩
  · have htok : create_encrypted_access_token_for_session
        { st with
            sessions := st.sessions ++ [⟨st.nextUuid, u.id, st.nextUuid + 1⟩]
            nextUuid := st.nextUuid + 2 }
        ⟨st.nextUuid, u.id, st.nextUuid + 1⟩ now lifetime
        = some (.tok true (.signed
            (access_payload u ⟨st.nextUuid, u.id, st.nextUuid + 1⟩ now lifetime))) := by
      unfold create_encrypted_access_token_for_session
      rw [show find_user
          { st with
              sessions := st.sessions ++ [⟨st.nextUuid, u.id, st.nextUuid + 1⟩]
              nextUuid := st.nextUuid + 2 }
          (UserSession.user_id ⟨st.nextUuid, u.id, st.nextUuid + 1⟩) = some u
        from find_user_eq hndU hu]
    exact Prod.ext rfl (Prod.ext htok rfl)
  · have hmap : st.sessions.map
        (fun r => if r.id = st.nextUuid
          then ({ r with version_id := st.nextUuid + 2 } : UserSession) else r)
        = st.sessions := by
      refine map_noop _ st.sessions ?_
      intro r hr
      have hne : ¬(r.id = st.nextUuid) := Nat.ne_of_lt (hltS r hr).1
      simp [hne]
    have hrev : revoke_session
        { st with
            sessions := st.sessions ++ [⟨st.nextUuid, u.id, st.nextUuid + 1⟩]
            nextUuid := st.nextUuid + 2 }
        ⟨st.nextUuid, u.id, st.nextUuid + 1⟩ false
        = { st with
            sessions := st.sessions ++ [⟨st.nextUuid, u.id, st.nextUuid + 2⟩]
            nextUuid := st.nextUuid + 3 } := by
      simp [revoke_session, rotate_version, List.map_append, hmap]
    rw [hrev]
    have hfs2 : find_session_by_str
        { st with
            sessions := st.sessions ++ [⟨st.nextUuid, u.id, st.nextUuid + 2⟩]
            nextUuid := st.nextUuid + 3 }
        (uuidStr st.nextUuid) = some ⟨st.nextUuid, u.id, st.nextUuid + 2⟩ := by
      unfold find_session_by_str
      refine find?_append_fresh _ ?_ (by simp)
      intro r hr
      simpa using fun h => Nat.ne_of_lt (hltS r hr).1 (uuidStr_inj h)
    refine ⟨⟨st.nextUuid, u.id, st.nextUuid + 2⟩, ?_, ?_, ?_⟩
    · unfold find_session
      refine find?_append_fresh _ ?_ (by simp)
      intro r hr
      simpa using Nat.ne_of_lt (hltS r hr).1
    · refine decode_version_mismatch _ _ _ _ _ _ _ _ ?_ ?_ rfl
        (uuidStr_ne_empty u.id) (find_user_by_str_eq hndU hu) rfl
        (uuidStr_ne_empty st.nextUuid) hfs2 rfl ?_
      · have h : ¬(now + lifetime ≤ nowv) := by omega
        simpa [expPassed, access_payload] using h
      · intro t ht
        injection ht with h
        subst h
        rfl
      · refine Or.inr ⟨uuidStr (st.nextUuid + 1), rfl, ?_⟩
        intro h
        have h2 := uuidStr_inj h
        simp at h2
    · refine ⟨.tok true (.signed
          (access_payload u ⟨st.nextUuid, u.id, st.nextUuid + 2⟩ now2 lifetime2)), ?_, ?_⟩
      · unfold create_encrypted_access_token_for_session
        rw [show find_user
            { st with
                sessions := st.sessions ++ [⟨st.nextUuid, u.id, st.nextUuid + 2⟩]
                nextUuid := st.nextUuid + 3 }
            (UserSession.user_id ⟨st.nextUuid, u.id, st.nextUuid + 2⟩) = some u
          from find_user_eq hndU hu]
      · refine decode_success _ _ _ _ _ _ _ _ ?_ ?_ rfl
          (uuidStr_ne_empty u.id) (find_user_by_str_eq hndU hu) rfl
          (uuidStr_ne_empty st.nextUuid) hfs2 rfl rfl
        · have h : ¬(now2 + lifetime2 ≤ nowv2) := by omega
          simpa [expPassed, access_payload] using h
        · intro t ht
          injection ht with h
          subst h
          rfl

/-- Witness for C2 at the concrete store `exStore`: issue at time 0 with
lifetime 10, soft-revoke, validate the old and a reissued credential at
time 5. -/
theorem soft_revoke_then_reissue_witness :
    ∃ s cred st1, create_session exStore exUser 0 10 = (s, some cred, st1) ∧
      ∃ s2, find_session (revoke_session st1 s false) s.id = some s2 ∧
        decrypt_and_decode_token (revoke_session st1 s false) cred (some "access") 5
          = (some exUser, some s2, some .session_version_mismatch) ∧
        ∃ cred2,
          create_encrypted_access_token_for_session (revoke_session st1 s false) s2 0 10
            = some cred2 ∧
          decrypt_and_decode_token (revoke_session st1 s false) cred2 (some "access") 5
            = (some exUser, some s2, none) :=
  soft_revoke_then_reissue exStore exUser 0 10 0 10 5 5 (by decide) (by decide)
    (by decide) (by decide)

/-- C3 counterexample: hard-revoking the same in-memory session instance a
second time DOES fault: the first `session.delete()` removes the row and
nulls the instance's pk, and Django's `Model.delete()` raises `ValueError`
on a pk-less instance, so the retried revoke is not fault-free as claimed.
Shown at a concrete store: the first call succeeds and the second call on
the instance it returned raises the fault. -/
theorem second_hard_revoke_faults_counterexample :
    revoke_session_instance exStore3 ⟨some 2, 0, 3⟩ true
      = .ok (⟨none, 0, 3⟩,
          { users := [⟨0, "9990001111"⟩], sessions := [], nextUuid := 4 }) ∧
    revoke_session_instance
        { users := [⟨0, "9990001111"⟩], sessions := [], nextUuid := 4 }
        ⟨none, 0, 3⟩ true
      = .error .value_error := by
  exact ⟨rfl, rfl⟩

/-- C3 amended: for every session created by `create_session` and the
credential minted against it, after `revoke_session(session,
hard_delete=True)` the old credential validates to
`(user, none, session_not_found)`; the deletion is idempotent at row level
(the store is unchanged by a repeated row-level delete), but calling
`revoke_session(same session instance, hard=True)` a second time raises
`ValueError`, because the first `session.delete()` nulled the in-memory
instance's primary key. -/
theorem hard_revoke_not_found_and_retry_faults
    (st : Store) (u : User) (now lifetime nowv : Int)
    (hwf : st.wf) (hu : u ∈ st.users) (hv : nowv < now + lifetime) :
    ∃ s cred st1, create_session st u now lifetime = (s, some cred, st1) ∧
      ∃ inst st2,
        revoke_session_instance st1 ⟨some s.id, s.user_id, s.version_id⟩ true
          = .ok (inst, st2) ∧
        inst.pk = none ∧
        st2 = revoke_session st1 s true ∧
        decrypt_and_decode_token st2 cred (some "access") nowv
          = (some u, none, some .session_not_found) ∧
        revoke_session_instance st2 inst true = .error .value_error ∧
        revoke_session st2 s true = st2 := by
  obtain ⟨hndU, hndS, hltU, hltS⟩ := hwf
  refine ⟨⟨st.nextUuid, u.id, st.nextUuid + 1⟩,
    .tok true (.signed (access_payload u ⟨st.nextUuid, u.id, st.nextUuid + 1⟩ now lifetime)),
    { st with
        sessions := st.sessions ++ [⟨st.nextUuid, u.id, st.nextUuid + 1⟩]
        nextUuid := st.nextUuid + 2 }, ?_, ?_⟩
  · have htok : create_encrypted_access_token_for_session
        { st with
            sessions := st.sessions ++ [⟨st.nextUuid, u.id, st.nextUuid + 1⟩]
            nextUuid := st.nextUuid + 2 }
        ⟨st.nextUuid, u.id, st.nextUuid + 1⟩ now lifetime
        = some (.tok true (.signed
            (access_payload u ⟨st.nextUuid, u.id, st.nextUuid + 1⟩ now lifetime))) := by
      unfold create_encrypted_access_token_for_session
      rw [show find_user
          { st with
              sessions := st.sessions ++ [⟨st.nextUuid, u.id, st.nextUuid + 1⟩]
              nextUuid := st.nextUuid + 2 }
          (UserSession.user_id ⟨st.nextUuid, u.id, st.nextUuid + 1⟩) = some u
        from find_user_eq hndU hu]
    exact Prod.ext rfl (Prod.ext htok rfl)
  · have hrev : revoke_session
        { st with
            sessions := st.sessions ++ [⟨st.nextUuid, u.id, st.nextUuid + 1⟩]
            nextUuid := st.nextUuid + 2 }
        ⟨st.nextUuid, u.id, st.nextUuid + 1⟩ true
        = { st with sessions := st.sessions, nextUuid := st.nextUuid + 2 } := by
      simp [revoke_session, List.filter_append]
      intro r hr
      exact Nat.ne_of_lt (hltS r hr).1
    have hok : revoke_session_instance
        { st with
            sessions := st.sessions ++ [⟨st.nextUuid, u.id, st.nextUuid + 1⟩]
            nextUuid := st.nextUuid + 2 }
        ⟨some st.nextUuid, u.id, st.nextUuid + 1⟩ true
        = .ok (⟨none, u.id, st.nextUuid + 1⟩,
            { st with sessions := st.sessions, nextUuid := st.nextUuid + 2 }) := by
      simp [revoke_session_instance, SessionInstance.delete, List.filter_append]
      intro r hr
      exact Nat.ne_of_lt (hltS r hr).1
    refine ⟨⟨none, u.id, st.nextUuid + 1⟩,
      { st with sessions := st.sessions, nextUuid := st.nextUuid + 2 },
      hok, rfl, hrev.symm, ?_, rfl, ?_⟩
    · have hfs : find_session_by_str
          { st with sessions := st.sessions, nextUuid := st.nextUuid + 2 }
          (uuidStr st.nextUuid) = none := by
        unfold find_session_by_str
        rw [List.find?_eq_none]
        intro r hr
        simpa using fun h => Nat.ne_of_lt (hltS r hr).1 (uuidStr_inj h)
      refine decode_session_not_found _ _ _ _ _ _ _ ?_ ?_ rfl
        (uuidStr_ne_empty u.id) (find_user_by_str_eq hndU hu) rfl
        (uuidStr_ne_empty st.nextUuid) hfs
      · have h : ¬(now + lifetime ≤ nowv) := by omega
        simpa [expPassed, access_payload] using h
      · intro t ht
        injection ht with h
        subst h
        rfl
    · simp [revoke_session]
      intro r hr
      exact Nat.ne_of_lt (hltS r hr).1

/-- Witness for the amended C3 at the concrete store `exStore`: issue at
time 0 with lifetime 10, hard-revoke the instance, validate the old
credential at time 5, retry the revoke on the pk-nulled instance. -/
theorem hard_revoke_not_found_and_retry_faults_witness :
    ∃ s cred st1, create_session exStore exUser 0 10 = (s, some cred, st1) ∧
      ∃ inst st2,
        revoke_session_instance st1 ⟨some s.id, s.user_id, s.version_id⟩ true
          = .ok (inst, st2) ∧
        inst.pk = none ∧
        st2 = revoke_session st1 s true ∧
        decrypt_and_decode_token st2 cred (some "access") 5
          = (some exUser, none, some .session_not_found) ∧
        revoke_session_instance st2 inst true = .error .value_error ∧
        revoke_session st2 s true = st2 :=
  hard_revoke_not_found_and_retry_faults exStore exUser 0 10 5
    (by decide) (by decide) (by decide)

/-- C4: for every non-empty credential string that the Fernet layer rejects,
validation returns `(none, none, invalid_encrypted)` whatever the inner
bytes would have contained — the envelope stage is decided strictly before
any signature or expiry check, so no `token_expired` or `invalid_token`
error can escape from an undecryptable credential. -/
theorem envelope_failure_checked_first (st : Store) (inner : Jwt)
    (ty : Option String) (now : Int) :
    decrypt_and_decode_token st (.tok false inner) ty now
      = (none, none, some .invalid_encrypted) := rfl

/-- C5 counterexample: in `exStore2`, a credential naming user 0 but session
2 (owned by user 1) validates to `(some user0, none, session_user_mismatch)`
— the looked-up session is NOT included in the result, contrary to the
claimed `(Identity, Session, SessionOwnerMismatch)`. -/
theorem ownership_mismatch_drops_session_counterexample :
    decrypt_and_decode_token exStore2 (.tok true (.signed exPayloadCross)) (some "access") 0
      = (some ⟨0, "9990001111"⟩, none, some .session_user_mismatch) ∧
    (decrypt_and_decode_token exStore2 (.tok true (.signed exPayloadCross)) (some "access") 0).2.1
      ≠ some exSession2 := by
  decide

/-- C5 amended: a credential that passes envelope, signature/expiry, kind,
identity and session lookup but names a session whose owner differs from the
resolved user yields `(user, none, session_user_mismatch)` — the specific
ownership error is returned, with the identity as partial result, but the
session is dropped from the result. -/
theorem ownership_mismatch_returns_no_session (st : Store) (p : Payload)
    (ty : Option String) (now : Int) (user : User) (session : UserSession)
    (uid sid : String)
    (hnexp : expPassed p now = false)
    (hty : ∀ t, ty = some t → p.type = some t)
    (huid : p.user_id = some uid) (huidne : uid ≠ "")
    (hfu : find_user_by_str st uid = some user)
    (hsid : p.session_id = some sid) (hsidne : sid ≠ "")
    (hfs : find_session_by_str st sid = some session)
    (hown : session.user_id ≠ user.id) :
    decrypt_and_decode_token st (.tok true (.signed p)) ty now
      = (some user, none, some .session_user_mismatch) :=
  decode_session_user_mismatch st p ty now user session uid sid
    hnexp hty huid huidne hfu hsid hsidne hfs hown

/-- Witness for the amended C5 at `exStore2` with the cross-owner payload. -/
theorem ownership_mismatch_returns_no_session_witness :
    decrypt_and_decode_token exStore2 (.tok true (.signed exPayloadCross)) (some "access") 0
      = (some ⟨0, "9990001111"⟩, none, some .session_user_mismatch) :=
  ownership_mismatch_returns_no_session exStore2 exPayloadCross (some "access") 0
    ⟨0, "9990001111"⟩ exSession2 (uuidStr 0) (uuidStr 2)
    (by decide)
    (fun t ht => by injection ht with h; subst h; rfl)
    rfl (by decide) (by decide) rfl (by decide) (by decide) (by decide)

/-- C6 counterexample: the empty credential and a non-empty undecryptable
credential return the SAME error code `invalid_encrypted`; the code has no
dedicated missing-credential error distinct from the envelope-decryption
error. -/
theorem missing_credential_not_distinct_counterexample :
    decrypt_and_decode_token exStore .empty (some "access") 0
      = (none, none, some .invalid_encrypted) ∧
    decrypt_and_decode_token exStore (.tok false .malformed) (some "access") 0
      = (none, none, some .invalid_encrypted) :=
  ⟨rfl, rfl⟩

/-- C6 amended: an empty/missing credential short-circuits before any
decryption is attempted, with no identity and no session, but the error it
returns is `invalid_encrypted` — the same code the envelope stage uses —
not a dedicated missing-credential error. -/
theorem empty_credential_short_circuit (st : Store) (ty : Option String) (now : Int) :
    decrypt_and_decode_token st .empty ty now = (none, none, some .invalid_encrypted) := rfl

/-- C7: a decryptable, correctly signed credential whose `exp` claim is at
or before the current time is rejected with `token_expired`, whatever its
other claims contain; the expiry check is raised inside the verify step
(`jwt.decode`) itself, which reports the expiry before any payload is
released to the caller. -/
theorem expired_credential_rejected (st : Store) (p : Payload) (e now : Int)
    (ty : Option String) (hexp : p.exp = some e) (he : e ≤ now) :
    jwt_decode (.signed p) now = .error .expired ∧
    decrypt_and_decode_token st (.tok true (.signed p)) ty now
      = (none, none, some .token_expired) := by
  have hp : expPassed p now = true := by
    simp [expPassed, hexp, he]
  constructor
  · simp [jwt_decode, hp]
  · simp [decrypt_and_decode_token, jwt_decode, hp]

/-- Witness for C7 with the concrete expired payload at time 0. -/
theorem expired_credential_rejected_witness :
    exPayloadExpired.exp = some 0 ∧ (0 : Int) ≤ 0 ∧
    (jwt_decode (.signed exPayloadExpired) 0 = .error .expired ∧
     decrypt_and_decode_token exStore3 (.tok true (.signed exPayloadExpired)) (some "access") 0
       = (none, none, some .token_expired)) :=
  ⟨rfl, by decide,
    expired_credential_rejected exStore3 exPayloadExpired 0 0 (some "access") rfl (by decide)⟩

/-- C8: validation is a pure read. The state-threaded translation
`decrypt_and_decode_tokenS` returns exactly the pure function's result
together with the store it was given (no write ever happens), and therefore
two consecutive runs against the same store return identical results. -/
theorem validate_pure_read (st : Store) (c : Credential) (ty : Option String) (now : Int) :
    decrypt_and_decode_tokenS st c ty now = (decrypt_and_decode_token st c ty now, st) ∧
    (decrypt_and_decode_tokenS (decrypt_and_decode_tokenS st c ty now).2 c ty now).1
      = (decrypt_and_decode_tokenS st c ty now).1 := by
  have h : ∀ st' : Store,
      decrypt_and_decode_tokenS st' c ty now = (decrypt_and_decode_token st' c ty now, st') := by
    intro st'
    cases c with
    | empty => rfl
    | tok d inner =>
      cases d with
      | false => rfl
      | true =>
        unfold decrypt_and_decode_tokenS decrypt_and_decode_token
        cases hjd : jwt_decode inner now with
        | error e => cases e <;> simp [hjd]
        | ok p =>
          simp only [hjd, db_find_user_by_str, db_find_session_by_str,
            find_user_by_str, find_session_by_str]
          repeat' split <;> try rfl
  refine ⟨h st, ?_⟩
  simp [h]

/-- C9: a credential that passes every stage through session lookup and
ownership but whose claims lack a `session_version_id` entirely, or carry
one differing from the session's current `version_id`, yields
`(user, session, session_version_mismatch)` — a missing version claim is
reported as a version mismatch, not as a distinct missing-field error, and
never as success. -/
theorem missing_or_stale_version_is_mismatch (st : Store) (p : Payload)
    (ty : Option String) (now : Int) (user : User) (session : UserSession)
    (uid sid : String)
    (hnexp : expPassed p now = false)
    (hty : ∀ t, ty = some t → p.type = some t)
    (huid : p.user_id = some uid) (huidne : uid ≠ "")
    (hfu : find_user_by_str st uid = some user)
    (hsid : p.session_id = some sid) (hsidne : sid ≠ "")
    (hfs : find_session_by_str st sid = some session)
    (hown : session.user_id = user.id)
    (hver : p.session_version_id = none ∨
      ∃ sv, p.session_version_id = some sv ∧ sv ≠ uuidStr session.version_id) :
    decrypt_and_decode_token st (.tok true (.signed p)) ty now
      = (some user, some session, some .session_version_mismatch) :=
  decode_version_mismatch st p ty now user session uid sid
    hnexp hty huid huidne hfu hsid hsidne hfs hown hver

/-- Witness for C9 at `exStore3` with a payload carrying no
`session_version_id` claim at all. -/
theorem missing_or_stale_version_is_mismatch_witness :
    decrypt_and_decode_token exStore3 (.tok true (.signed exPayloadNoVer)) (some "access") 0
      = (some ⟨0, "9990001111"⟩, some exSession3, some .session_version_mismatch) :=
  missing_or_stale_version_is_mismatch exStore3 exPayloadNoVer (some "access") 0
    ⟨0, "9990001111"⟩ exSession3 (uuidStr 0) (uuidStr 2)
    (by decide)
    (fun t ht => by injection ht with h; subst h; rfl)
    rfl (by decide) (by decide) rfl (by decide) (by decide) (by decide)
    (Or.inl rfl)

/-- Helper for C10: once the JWT stage has succeeded, the full pipeline can
only return a later-stage error (or none), never one of the three
prefix-stage codes. -/
theorem decode_tail_not_prefix_error (st : Store) (p : Payload) (ty : Option String)
    (now : Int) (hok : expPassed p now = false) :
    ∀ e, (decrypt_and_decode_token st (.tok true (.signed p)) ty now).2.2 = some e →
      e ≠ .invalid_encrypted ∧ e ≠ .token_expired ∧ e ≠ .invalid_token := by
  intro e
  unfold decrypt_and_decode_token
  simp only [jwt_decode, hok, Bool.false_eq_true, if_false]
  repeat' split
  all_goals intro he
  all_goals simp_all
  all_goals subst he
  all_goals decide
/-- C10: `decrypt_and_get_payload` agrees with the presence/envelope/JWT
prefix of `decrypt_and_decode_token`: it returns `invalid_encrypted`,
`token_expired` or `invalid_token` exactly when the full pipeline (against
any store and expected type) returns that same error, and it returns a
payload exactly when the full pipeline proceeds past JWT verification
(its error, if any, is a later-stage one). -/
theorem payload_prefix_agreement (st : Store) (c : Credential) (ty : Option String) (now : Int) :
    (∀ e, e = ErrCode.invalid_encrypted ∨ e = ErrCode.token_expired ∨ e = ErrCode.invalid_token →
      ((decrypt_and_get_payload c now).2 = some e ↔
        (decrypt_and_decode_token st c ty now).2.2 = some e)) ∧
    ((decrypt_and_get_payload c now).2 = none ↔
      ((decrypt_and_decode_token st c ty now).2.2 ≠ some .invalid_encrypted ∧
       (decrypt_and_decode_token st c ty now).2.2 ≠ some .token_expired ∧
       (decrypt_and_decode_token st c ty now).2.2 ≠ some .invalid_token)) := by
  cases c with
  | empty => simp [decrypt_and_get_payload, decrypt_and_decode_token]
  | tok d inner =>
    cases d with
    | false => simp [decrypt_and_get_payload, decrypt_and_decode_token]
    | true =>
      cases hjd : jwt_decode inner now with
      | error e2 =>
        cases e2 with
        | expired =>
          constructor
          · intro e he
            simp [decrypt_and_get_payload, decrypt_and_decode_token, hjd]
          · simp [decrypt_and_get_payload, decrypt_and_decode_token, hjd]
        | invalid =>
          constructor
          · intro e he
            simp [decrypt_and_get_payload, decrypt_and_decode_token, hjd]
          · simp [decrypt_and_get_payload, decrypt_and_decode_token, hjd]
      | ok p =>
        cases inner with
        | malformed =>
          rw [show jwt_decode .malformed now = .error .invalid from rfl] at hjd
          cases hjd
        | signed q =>
          have hqp : expPassed q now = false ∧ q = p := by
            unfold jwt_decode at hjd
            split at hjd
            · exact absurd hjd (by simp)
            · rename_i j2 p2 hcon2
              injection hcon2 with hqq
              subst hqq
              split at hjd
              · exact absurd hjd (by simp)
              · rename_i hcond
                injection hjd with h
                simp at hcond
                exact ⟨hcond, h⟩
          obtain ⟨hok, rfl⟩ := hqp
          have htail := decode_tail_not_prefix_error st q ty now hok
          have hget : decrypt_and_get_payload (.tok true (.signed q)) now = (some q, none) := by
            simp [decrypt_and_get_payload, jwt_decode, hok]
          constructor
          · intro e he
            rw [hget]
            constructor
            · intro h
              simp at h
            · intro h
              rcases he with rfl | rfl | rfl
              · exact absurd rfl (htail _ h).1
              · exact absurd rfl (htail _ h).2.1
              · exact absurd rfl (htail _ h).2.2
          · rw [hget]
            constructor
            · intro _
              refine ⟨?_, ?_, ?_⟩
              · intro h
                exact absurd rfl (htail _ h).1
              · intro h
                exact absurd rfl (htail _ h).2.1
              · intro h
                exact absurd rfl (htail _ h).2.2
            · intro _
              rfl

/-- Witness for C1 at the concrete store `exStore`, issuing at time 0 with
lifetime 10 and validating at time 5. -/
theorem issue_then_validate_succeeds_witness :
    ∃ s cred st1,
      create_session exStore exUser 0 10 = (s, some cred, st1) ∧
      decrypt_and_decode_token st1 cred (some "access") 5 = (some exUser, some s, none) :=
  issue_then_validate_succeeds exStore exUser 0 10 5 (by decide) (by decide) (by decide)

end CustomAuth
